import Mathlib

/-!
Shallow embedding of the `cf-discovery-canonical-form` repository: the canonical
Cloud Foundry application data model (declared in `cfApplication.go` and the four
model versions of `unnamed/part_000`) together with the normalization layer the
specification describes.  The repository's source contains only the Go type
declarations; the normalizers themselves are not part of the source tree, so every
`normalize*` function below is modelled from the specification text (its doc
comment says exactly which part).  Type declarations are transcribed from the Go
source directly.
-/

namespace CF

/-- RouteProtocol enum.  Transcribed from the source: every model version declares
exactly the constants `http`, `https` and `tcp`
(cfApplication.go lines 36-42; part_000 lines 43-49, 105-111, 229-235, 368-374). -/
inductive RouteProtocol where
  | http
  | https
  | tcp
deriving DecidableEq

/-- Go string value of each declared `RouteProtocol` constant. -/
def RouteProtocol.value : RouteProtocol → String
  | .http => "http"
  | .https => "https"
  | .tcp => "tcp"

/-- RouteType enum, transcribed from cfApplication.go lines 29-34 and part_000
lines 36-41: constants `default` and `random`. -/
inductive RouteType where
  | default
  | random
deriving DecidableEq

/-- ProcessType enum, transcribed from part_000 lines 459-466: constants `web`
and `worker`. -/
inductive ProcessType where
  | web
  | worker
deriving DecidableEq

/-- Go string value of each declared `ProcessType` constant. -/
def ProcessType.value : ProcessType → String
  | .web => "web"
  | .worker => "worker"

/-- Probe, transcribed from part_000 lines 446-455: Endpoint, Timeout, Interval. -/
structure Probe where
  endpoint : String
  timeout : Nat
  interval : Nat
deriving DecidableEq

/-- Modelled from the spec (glossary): the sentinel Probe has empty Endpoint and
zero Timeout and Interval, meaning "no check configured". -/
def sentinelProbe : Probe := { endpoint := "", timeout := 0, interval := 0 }

/-- Modelled from the spec (glossary): a probe is the no-op sentinel when its
Endpoint is empty and Timeout and Interval are zero. -/
def Probe.isSentinel (p : Probe) : Bool :=
  p.endpoint = "" && p.timeout = 0 && p.interval = 0

/-- Canonical Route.  Modelled from the spec (section 3): URL, Protocol and Port.
The source splits these fields over model versions: part_000 lines 359-366
declare URL and Protocol, and part_000 lines 219-227 declare Hostname, Protocol
and Port with the documented port-inference comment; the spec's canonical Route
carries all three. -/
structure Route where
  url : String
  protocol : RouteProtocol
  port : Nat
deriving DecidableEq

/-- Canonical Service, transcribed from part_000 lines 394-402: Name and
Parameters (the free-form parameter payload is carried as an association list). -/
structure Service where
  name : String
  parameters : List (String × String)
deriving DecidableEq

/-- Canonical Process, modelled from the spec (section 3): Type, Name (defaults
to Type when absent), Image, Command, Memory, DiskQuota, HealthCheck,
ReadinessCheck, Replicas and LogRateLimit.  The field set follows the Process
declarations of part_000 lines 409-428 (which omit Name) and lines 130-157
(which include it). -/
structure Process where
  type : ProcessType
  name : String
  image : String
  command : List String
  memory : String
  diskQuota : String
  healthCheck : Probe
  readinessCheck : Probe
  replicas : Nat
  logRateLimit : String
deriving DecidableEq

/-- Canonical Sidecar, transcribed from part_000 lines 430-444: Name,
ProcessTypes, Command and Memory. -/
structure Sidecar where
  name : String
  processTypes : List ProcessType
  command : List String
  memory : String
deriving DecidableEq

/-- Canonical Metadata, transcribed from part_000 lines 328-339: Name and Space
(labels and annotation maps are free-form passthrough and are not modelled). -/
structure Metadata where
  name : String
  space : String
deriving DecidableEq

/-- Canonical Application, transcribed from part_000 lines 303-326: Metadata,
Env, Routes, Services, Processes, Sidecars, Stack, StartupTimeout, Replicas.
Env is carried as an insertion-ordered association list. -/
structure Application where
  metadata : Metadata
  env : List (String × String)
  routes : List Route
  services : List Service
  processes : List Process
  sidecars : List Sidecar
  stack : String
  startupTimeout : Nat
  replicas : Nat
deriving DecidableEq

/-- Modelled from the spec (section 7): the error kinds normalization can raise.
`duplicateRoute` and `duplicateService` name both offending entries;
`missingPort` names the TCP route's URL; `missingName` reports an absent
Application name. -/
inductive NormError where
  | missingName
  | missingPort (url : String)
  | duplicateRoute (r1 r2 : Route)
  | duplicateService (s1 s2 : Service)
deriving DecidableEq

/-- Modelled from the spec (section 4.1, shapes A/B after shape detection): a raw
route node carries the URL/FQDN string, the declared protocol, and the optional
explicit `port` field. -/
structure RouteNode where
  url : String
  protocol : RouteProtocol
  port : Option Nat
deriving DecidableEq

/-- Modelled from the spec (section 4.2): fold a digit list (most significant
first) into a natural number. -/
def digitsToNat (ds : List Char) : Nat :=
  ds.foldl (fun a c => a * 10 + (c.toNat - 48)) 0

/-- Modelled from the spec (section 4.2): scanning the reversed character list of
a URL, collect the numeric suffix that follows the last `:` of the URL.  Returns
the reversed host characters and the digits in order, or `none` when the URL has
no colon, the suffix after the last colon is empty, or it is not all digits. -/
def extractPortRev : List Char → List Char → Option (List Char × List Char)
  | [], _ => none
  | c :: rest, ds =>
    if c = ':' then
      if ds.isEmpty then none else some (rest, ds)
    else if c.isDigit then extractPortRev rest (c :: ds)
    else none

/-- Modelled from the spec (section 4.2): split the URL on the last `:` if the
suffix is numeric, treating the suffix as an embedded port; otherwise the whole
string is the hostname. -/
def splitHostPort (url : String) : String × Option Nat :=
  match extractPortRev url.toList.reverse [] with
  | some (hostRev, ds) => (String.mk hostRev.reverse, some (digitsToNat ds))
  | none => (url, none)

/-- Modelled from the spec (sections 3 and 4.2): normalize one route node.  Port
inference: HTTP uses the explicit port or 80, HTTPS uses the explicit port or
443; for TCP the URL is split on the last `:` when the suffix is numeric (the
embedded port is extracted into Port, the host keeps the stem), the port is the
embedded one or else the explicit `port` field, and a `missingPort` error is
raised when neither is present. -/
def normalizeRoute (r : RouteNode) : Except NormError Route :=
  match r.protocol with
  | .http => .ok { url := r.url, protocol := .http, port := r.port.getD 80 }
  | .https => .ok { url := r.url, protocol := .https, port := r.port.getD 443 }
  | .tcp =>
    match splitHostPort r.url with
    | (host, some p) => .ok { url := host, protocol := .tcp, port := p }
    | (host, none) =>
      match r.port with
      | some p => .ok { url := host, protocol := .tcp, port := p }
      | none => .error (.missingPort r.url)

/-- Modelled from the spec (section 4.2): normalize each route node in order,
stopping at the first error. -/
def mapRoutes : List RouteNode → Except NormError (List Route)
  | [] => .ok []
  | n :: ns =>
    match normalizeRoute n, mapRoutes ns with
    | .ok c, .ok cs => .ok (c :: cs)
    | .error e, _ => .error e
    | .ok _, .error e => .error e

/-- Modelled from the spec (section 3): the uniqueness key of a canonical route
is its (URL, Port) pair. -/
def routeKey (r : Route) : String × Nat := (r.url, r.port)

/-- Modelled from the spec (sections 3 and 4.2): find the first pair of routes
sharing a (URL, Port) key, if any. -/
def findDup : List Route → Option (Route × Route)
  | [] => none
  | r :: rest =>
    match rest.find? (fun s => routeKey s = routeKey r) with
    | some s => some (r, s)
    | none => findDup rest

/-- Modelled from the spec (section 4.2): normalize a route node sequence and
enforce the (URL, Port) uniqueness invariant; a duplicate pair raises
`duplicateRoute` naming both entries, and the surviving output preserves input
order. -/
def normalizeRoutes (ns : List RouteNode) : Except NormError (List Route) :=
  match mapRoutes ns with
  | .error e => .error e
  | .ok cs =>
    match findDup cs with
    | some (r1, r2) => .error (.duplicateRoute r1 r2)
    | none => .ok cs

/-- Modelled from the spec (sections 4.1 and 4.2, shape C): the route spec
envelope with Type=Default synthesizes exactly one HTTP route from the
application's Metadata.Name when the provided sequence is empty and uses the
sequence as given otherwise; Type=Random uses the provided sequence verbatim and
never synthesizes. -/
def normalizeRouteSpec (appName : String) (t : RouteType) (ns : List RouteNode) :
    List RouteNode :=
  match t with
  | .default =>
    if ns.isEmpty then [{ url := appName, protocol := .http, port := none }] else ns
  | .random => ns

/-- Modelled from the spec (section 4.1): after shape detection the manifest's
route field is either a plain sequence of route nodes (shapes A/B) or a shape-C
route spec envelope carrying a `type` and a `routes` sequence. -/
inductive RouteInput where
  | plain (nodes : List RouteNode)
  | spec (t : RouteType) (nodes : List RouteNode)
deriving DecidableEq

/-- Modelled from the spec (section 4.2): the route node sequence to normalize,
after resolving a shape-C envelope against the application's Metadata.Name. -/
def effectiveRouteNodes (appName : String) : RouteInput → List RouteNode
  | .plain ns => ns
  | .spec t ns => normalizeRouteSpec appName t ns

/-- Modelled from the spec (section 4.3): a raw service node after shape
detection, carrying the name and the optional parameter payload. -/
structure ServiceNode where
  name : String
  parameters : List (String × String)
deriving DecidableEq

/-- Modelled from the spec (section 4.3): normalize one service node. -/
def normalizeService (s : ServiceNode) : Service :=
  { name := s.name, parameters := s.parameters }

/-- Modelled from the spec (section 4.3): find the first pair of services
sharing a name, if any. -/
def findDupService : List Service → Option (Service × Service)
  | [] => none
  | s :: rest =>
    match rest.find? (fun t => t.name = s.name) with
    | some t => some (s, t)
    | none => findDupService rest

/-- Modelled from the spec (section 4.3): normalize a service node sequence;
a duplicate Name raises `duplicateService` naming both entries. -/
def normalizeServices (ss : List ServiceNode) : Except NormError (List Service) :=
  match findDupService (ss.map normalizeService) with
  | some (s1, s2) => .error (.duplicateService s1 s2)
  | none => .ok (ss.map normalizeService)

/-- Modelled from the spec (sections 4.1 and 4.4): a raw process node after
shape detection.  It carries the optional `type` and `name`, the structured
`healthCheck`/`readinessCheck` objects when present, the flat legacy liveness
fields (`livenessProbe`, `livenessProbeTimeout`; absent is the empty string /
zero, matching the Go `omitempty` encoding of part_000 lines 69-76 of
cfApplication.go), the routes the process declares, and the passthrough fields. -/
structure ProcessNode where
  type : Option ProcessType
  name : Option String
  image : String
  command : List String
  memory : String
  diskQuota : String
  healthCheck : Option Probe
  readinessCheck : Option Probe
  livenessProbe : String
  livenessProbeTimeout : Nat
  replicas : Option Nat
  routes : List RouteNode
  logRateLimit : String
deriving DecidableEq

/-- Modelled from the spec (section 4.4): reconcile the two historical probe
representations.  The structured `healthCheck` object wins outright when
present; otherwise a Probe is synthesized from the flat legacy fields
(Endpoint = livenessProbe, Timeout = livenessProbeTimeout, Interval derived by
convention as Timeout since the flat form has no interval field); when neither
form is present the result is the no-op sentinel. -/
def reconcileHealthCheck (structured : Option Probe) (livenessProbe : String)
    (livenessProbeTimeout : Nat) : Probe :=
  match structured with
  | some p => p
  | none =>
    if livenessProbe = "" then sentinelProbe
    else { endpoint := livenessProbe, timeout := livenessProbeTimeout,
           interval := livenessProbeTimeout }

/-- Modelled from the spec (section 4.4): type inference.  When the `type` field
is absent the process is Web when it declares at least one Route, else Worker. -/
def inferProcessType (t : Option ProcessType) (routes : List RouteNode) :
    ProcessType :=
  t.getD (if routes.isEmpty then .worker else .web)

/-- Modelled from the spec (section 4.4): normalize one process node.  Type is
inferred when absent; Name defaults to the Type when absent; HealthCheck is the
reconciled probe; ReadinessCheck has no legacy flat form and defaults to the
sentinel; Replicas defaults to 1; the remaining fields pass through unchanged. -/
def normalizeProcess (p : ProcessNode) : Process :=
  { type := inferProcessType p.type p.routes
    name := p.name.getD (inferProcessType p.type p.routes).value
    image := p.image
    command := p.command
    memory := p.memory
    diskQuota := p.diskQuota
    healthCheck := reconcileHealthCheck p.healthCheck p.livenessProbe p.livenessProbeTimeout
    readinessCheck := p.readinessCheck.getD sentinelProbe
    replicas := p.replicas.getD 1
    logRateLimit := p.logRateLimit }

/-- Modelled from the spec (sections 3 and 4.5): a raw sidecar node.  The
canonical Sidecar fields come from part_000 lines 430-444; the optional probe
objects are carried because sidecar probes take part in the StartupTimeout
default rule (earlier model versions declare sidecars as Processes). -/
structure SidecarNode where
  name : String
  processTypes : List ProcessType
  command : List String
  memory : String
  healthCheck : Option Probe
  readinessCheck : Option Probe
deriving DecidableEq

/-- Modelled from the spec (section 3): normalize one sidecar node to the
canonical Sidecar record. -/
def normalizeSidecar (s : SidecarNode) : Sidecar :=
  { name := s.name, processTypes := s.processTypes, command := s.command,
    memory := s.memory }

/-- Modelled from the spec (section 6): the manifest after shape detection, the
input of the normalization pass.  StartupTimeout 0 means unset (the Go field is
a uint serialized with `omitempty`). -/
structure Manifest where
  metadata : Metadata
  env : List (String × String)
  routeInput : RouteInput
  services : List ServiceNode
  processes : List ProcessNode
  sidecars : List SidecarNode
  stack : String
  startupTimeout : Nat
  replicas : Option Nat
deriving DecidableEq

/-- Modelled from the spec (section 4.5): whether a process node declares a
non-sentinel probe once its two probes are reconciled. -/
def procProbesNonSentinel (p : ProcessNode) : Bool :=
  !(reconcileHealthCheck p.healthCheck p.livenessProbe p.livenessProbeTimeout).isSentinel
    || !(p.readinessCheck.getD sentinelProbe).isSentinel

/-- Modelled from the spec (section 4.5): whether a sidecar node declares a
non-sentinel probe. -/
def sidecarProbesNonSentinel (s : SidecarNode) : Bool :=
  !(s.healthCheck.getD sentinelProbe).isSentinel
    || !(s.readinessCheck.getD sentinelProbe).isSentinel

/-- Modelled from the spec (section 4.5): whether at least one Process or
Sidecar of the manifest declares a non-sentinel Probe. -/
def anyNonSentinelProbe (m : Manifest) : Bool :=
  m.processes.any procProbesNonSentinel || m.sidecars.any sidecarProbesNonSentinel

/-- Modelled from the spec (sections 4.5 and 7): the whole normalization pass.
The Application name is required; routes are resolved (shape C included),
normalized and checked for (URL, Port) duplicates; services are normalized and
checked for duplicate names; processes and sidecars are normalized; the
StartupTimeout default of 60 applies only when it is unset and at least one
Process or Sidecar declares a non-sentinel Probe; Replicas defaults to 1. -/
def normalizeApplication (m : Manifest) : Except NormError Application :=
  if m.metadata.name = "" then .error .missingName
  else
    match normalizeRoutes (effectiveRouteNodes m.metadata.name m.routeInput) with
    | .error e => .error e
    | .ok routes =>
      match normalizeServices m.services with
      | .error e => .error e
      | .ok services =>
        .ok { metadata := m.metadata
              env := m.env
              routes := routes
              services := services
              processes := m.processes.map normalizeProcess
              sidecars := m.sidecars.map normalizeSidecar
              stack := m.stack
              startupTimeout :=
                if m.startupTimeout ≠ 0 then m.startupTimeout
                else if anyNonSentinelProbe m then 60 else 0
              replicas := m.replicas.getD 1 }

/-- Modelled from the spec (section 8, round-trip): read one canonical Route
back as an already-canonical route node (its JSON serializes `url`, `protocol`
and `port` unconditionally). -/
def routeToNode (r : Route) : RouteNode :=
  { url := r.url, protocol := r.protocol, port := some r.port }

/-- Modelled from the spec (section 8, round-trip): read one canonical Service
back as a service node. -/
def serviceToNode (s : Service) : ServiceNode :=
  { name := s.name, parameters := s.parameters }

/-- Modelled from the spec (section 8, round-trip): read one canonical Process
back as a process node; the canonical record carries only the structured probes,
never the legacy flat fields. -/
def processToNode (p : Process) : ProcessNode :=
  { type := some p.type
    name := some p.name
    image := p.image
    command := p.command
    memory := p.memory
    diskQuota := p.diskQuota
    healthCheck := some p.healthCheck
    readinessCheck := some p.readinessCheck
    livenessProbe := ""
    livenessProbeTimeout := 0
    replicas := some p.replicas
    routes := []
    logRateLimit := p.logRateLimit }

/-- Modelled from the spec (section 8, round-trip): read one canonical Sidecar
back as a sidecar node (the canonical Sidecar of part_000 lines 430-444 carries
no probes). -/
def sidecarToNode (s : Sidecar) : SidecarNode :=
  { name := s.name, processTypes := s.processTypes, command := s.command,
    memory := s.memory, healthCheck := none, readinessCheck := none }

/-- Modelled from the spec (section 8, round-trip): read a canonical Application
back as an already-canonical manifest, the way its JSON representation parses. -/
def toManifest (a : Application) : Manifest :=
  { metadata := a.metadata
    env := a.env
    routeInput := .plain (a.routes.map routeToNode)
    services := a.services.map serviceToNode
    processes := a.processes.map processToNode
    sidecars := a.sidecars.map sidecarToNode
    stack := a.stack
    startupTimeout := a.startupTimeout
    replicas := some a.replicas }

/-- Field names of the Go struct `Process` in the canonical model version
(part_000 lines 409-428), transcribed in declaration order. -/
def canonicalProcessFieldNames : List String :=
  ["Type", "Image", "Command", "DiskQuota", "Memory", "HealthCheck",
   "ReadinessCheck", "Replicas", "LogRateLimit"]

/-- Field names of the Go struct `Application` in the canonical model version
(part_000 lines 303-326), transcribed in declaration order. -/
def canonicalApplicationFieldNames : List String :=
  ["Metadata", "Env", "Routes", "Services", "Processes", "Sidecars", "Stack",
   "StartupTimeout", "Replicas"]

/-- RouteProtocol constant values declared in cfApplication.go lines 36-42. -/
def routeProtocolConstantsV1 : List String := ["http", "https", "tcp"]

/-- RouteProtocol constant values declared in part_000 lines 43-49. -/
def routeProtocolConstantsV2 : List String := ["http", "https", "tcp"]

/-- RouteProtocol constant values declared in part_000 lines 105-111 and
repeated identically at lines 229-235. -/
def routeProtocolConstantsV3 : List String := ["http", "https", "tcp"]

/-- RouteProtocol constant values declared in part_000 lines 368-374. -/
def routeProtocolConstantsV4 : List String := ["http", "https", "tcp"]

deriving instance DecidableEq for Except

/-!  Theorems.  Helper lemmas come first; each claim theorem carries the claim id
in its doc comment. -/

/-- When `splitHostPort` finds no embedded port, the host component is the whole
URL unchanged. -/
theorem splitHostPort_snd_none (u : String) (h : (splitHostPort u).2 = none) :
    (splitHostPort u).1 = u := by
  unfold splitHostPort at h ⊢
  cases hx : extractPortRev u.toList.reverse [] with
  | none => rfl
  | some q =>
    rw [hx] at h
    obtain ⟨hostRev, ds⟩ := q
    exact Option.noConfusion h

/-- Elementwise success characterization of `mapRoutes`. -/
theorem mapRoutes_ok_iff (ns : List RouteNode) (cs : List Route) :
    mapRoutes ns = .ok cs ↔
      List.Forall₂ (fun n c => normalizeRoute n = .ok c) ns cs := by
  induction ns generalizing cs with
  | nil =>
    constructor
    · intro h
      cases cs with
      | nil => exact List.Forall₂.nil
      | cons c cs => exact List.noConfusion (Except.ok.inj h)
    · intro h
      cases h
      rfl
  | cons n ns ih =>
    constructor
    · intro h
      unfold mapRoutes at h
      cases hn : normalizeRoute n with
      | error e => rw [hn] at h; exact Except.noConfusion h
      | ok c =>
        rw [hn] at h
        cases hns : mapRoutes ns with
        | error e => rw [hns] at h; exact Except.noConfusion h
        | ok cs' =>
          rw [hns] at h
          have hcs := Except.ok.inj h
          subst hcs
          exact List.Forall₂.cons hn ((ih cs').mp hns)
    · intro h
      cases h with
      | cons hc htail =>
        unfold mapRoutes
        rw [hc, (ih _).mpr htail]

/-- A successful `findDup` scan result names two list members with equal keys. -/
theorem findDup_some (cs : List Route) (a b : Route)
    (h : findDup cs = some (a, b)) :
    routeKey a = routeKey b ∧ a ∈ cs ∧ b ∈ cs := by
  induction cs with
  | nil => exact Option.noConfusion h
  | cons r rest ih =>
    unfold findDup at h
    cases hf : rest.find? (fun s => routeKey s = routeKey r) with
    | some s =>
      rw [hf] at h
      have hpair := Option.some.inj h
      have hr : r = a := congrArg Prod.fst hpair
      have hs : s = b := congrArg Prod.snd hpair
      subst hr
      subst hs
      have hk := List.find?_some hf
      rw [decide_eq_true_iff] at hk
      exact ⟨hk.symm, List.mem_cons_self r rest,
        List.mem_cons_of_mem r (List.mem_of_find?_eq_some hf)⟩
    | none =>
      rw [hf] at h
      obtain ⟨hk, ha, hb⟩ := ih h
      exact ⟨hk, List.mem_cons_of_mem r ha, List.mem_cons_of_mem r hb⟩

/-- The `findDup` scan finds nothing exactly when all (URL, Port) keys are
pairwise distinct. -/
theorem findDup_eq_none_iff (cs : List Route) :
    findDup cs = none ↔
      cs.Pairwise (fun r s => routeKey r ≠ routeKey s) := by
  induction cs with
  | nil => constructor <;> intro _ <;> first | exact List.Pairwise.nil | rfl
  | cons r rest ih =>
    rw [List.pairwise_cons]
    unfold findDup
    cases hf : rest.find? (fun s => routeKey s = routeKey r) with
    | some s =>
      constructor
      · intro h
        exact Option.noConfusion h
      · intro h
        have hk := List.find?_some hf
        rw [decide_eq_true_iff] at hk
        exact absurd hk (Ne.symm (h.1 s (List.mem_of_find?_eq_some hf)))
    | none =>
      constructor
      · intro h
        refine ⟨fun b hb hkey => ?_, ih.mp h⟩
        have hb' := List.find?_eq_none.mp hf b hb
        rw [decide_eq_true_iff] at hb'
        exact hb' hkey.symm
      · intro h
        exact ih.mpr h.2

/-- A successful `findDupService` scan result names two services with the same
name. -/
theorem findDupService_some (cs : List Service) (a b : Service)
    (h : findDupService cs = some (a, b)) :
    a.name = b.name ∧ a ∈ cs ∧ b ∈ cs := by
  induction cs with
  | nil => exact Option.noConfusion h
  | cons r rest ih =>
    unfold findDupService at h
    cases hf : rest.find? (fun t => t.name = r.name) with
    | some s =>
      rw [hf] at h
      have hpair := Option.some.inj h
      have hr : r = a := congrArg Prod.fst hpair
      have hs : s = b := congrArg Prod.snd hpair
      subst hr
      subst hs
      have hk := List.find?_some hf
      rw [decide_eq_true_iff] at hk
      exact ⟨hk.symm, List.mem_cons_self r rest,
        List.mem_cons_of_mem r (List.mem_of_find?_eq_some hf)⟩
    | none =>
      rw [hf] at h
      obtain ⟨hk, ha, hb⟩ := ih h
      exact ⟨hk, List.mem_cons_of_mem r ha, List.mem_cons_of_mem r hb⟩

/-- C1: for every normalized route, the Port of the canonical Route follows the
inference rule.  Protocol HTTP with no explicit port yields Port 80; HTTPS with
no explicit port yields Port 443 (no distinct HTTP2 constant is representable);
for TCP the port is taken from the source, either embedded in the URL (the URL
keeps the stem) or from the explicit port field, and normalization fails with a
`missingPort` error when a TCP route has neither. -/
theorem c1_port_inference (r : RouteNode) :
    (r.protocol = .http → r.port = none →
      normalizeRoute r = .ok { url := r.url, protocol := .http, port := 80 }) ∧
    (r.protocol = .https → r.port = none →
      normalizeRoute r = .ok { url := r.url, protocol := .https, port := 443 }) ∧
    (r.protocol = .tcp → ∀ p, (splitHostPort r.url).2 = some p →
      normalizeRoute r =
        .ok { url := (splitHostPort r.url).1, protocol := .tcp, port := p }) ∧
    (r.protocol = .tcp → (splitHostPort r.url).2 = none → ∀ p, r.port = some p →
      normalizeRoute r = .ok { url := r.url, protocol := .tcp, port := p }) ∧
    (r.protocol = .tcp → (splitHostPort r.url).2 = none → r.port = none →
      normalizeRoute r = .error (.missingPort r.url)) := by
  obtain ⟨u, proto, port⟩ := r
  refine ⟨?_, ?_, ?_, ?_, ?_⟩
  · intro hp hq
    cases hp
    cases hq
    rfl
  · intro hp hq
    cases hp
    cases hq
    rfl
  · intro hp p hemb
    cases hp
    have hsp : splitHostPort u = ((splitHostPort u).1, some p) := by
      rw [← hemb]
    unfold normalizeRoute
    simp only
    rw [hsp]
  · intro hp hemb p hq
    cases hp
    cases hq
    have h1 := splitHostPort_snd_none u hemb
    have hsp : splitHostPort u = (u, none) := Prod.ext_iff.mpr ⟨h1, hemb⟩
    unfold normalizeRoute
    simp only
    rw [hsp]
  · intro hp hemb hq
    cases hp
    cases hq
    have h1 := splitHostPort_snd_none u hemb
    have hsp : splitHostPort u = (u, none) := Prod.ext_iff.mpr ⟨h1, hemb⟩
    unfold normalizeRoute
    simp only
    rw [hsp]

/-- Witness for C1: the TCP route `tcp-example.com:1234` with no explicit port
normalizes with the URL-embedded port 1234 and the host stem. -/
theorem c1_witness :
    (RouteNode.mk "tcp-example.com:1234" .tcp none).protocol = .tcp ∧
    (splitHostPort "tcp-example.com:1234").2 = some 1234 ∧
    normalizeRoute (RouteNode.mk "tcp-example.com:1234" .tcp none) =
      .ok { url := "tcp-example.com", protocol := .tcp, port := 1234 } :=
  ⟨rfl, by decide,
    (c1_port_inference (RouteNode.mk "tcp-example.com:1234" .tcp none)).2.2.1
      rfl 1234 (by decide)⟩

/-- C2: the structured `healthCheck` object, when present, alone determines the
canonical HealthCheck Probe; otherwise, when the flat legacy field is present, a
Probe is synthesized with Endpoint = livenessProbe, Timeout =
livenessProbeTimeout and Interval = Timeout; when neither form is present the
HealthCheck is the sentinel Probe. -/
theorem c2_healthcheck_reconciliation (p : ProcessNode) :
    (∀ hc, p.healthCheck = some hc → (normalizeProcess p).healthCheck = hc) ∧
    (p.healthCheck = none → p.livenessProbe ≠ "" →
      (normalizeProcess p).healthCheck =
        { endpoint := p.livenessProbe, timeout := p.livenessProbeTimeout,
          interval := p.livenessProbeTimeout }) ∧
    (p.healthCheck = none → p.livenessProbe = "" →
      (normalizeProcess p).healthCheck = sentinelProbe) := by
  refine ⟨?_, ?_, ?_⟩
  · intro hc h
    simp [normalizeProcess, reconcileHealthCheck, h]
  · intro h hne
    simp [normalizeProcess, reconcileHealthCheck, h, hne]
  · intro h he
    simp [normalizeProcess, reconcileHealthCheck, h, he]

/-- Witness for C2: a process with flat legacy probe `/health` and timeout 5
normalizes to `HealthCheck{Endpoint: "/health", Timeout: 5, Interval: 5}`. -/
theorem c2_witness :
    (ProcessNode.mk none none "" [] "" "" none none "/health" 5 none [] "").healthCheck
        = none ∧
    (ProcessNode.mk none none "" [] "" "" none none "/health" 5 none [] "").livenessProbe
        ≠ "" ∧
    (normalizeProcess
        (ProcessNode.mk none none "" [] "" "" none none "/health" 5 none [] "")).healthCheck
      = { endpoint := "/health", timeout := 5, interval := 5 } :=
  ⟨rfl, by decide,
    (c2_healthcheck_reconciliation
        (ProcessNode.mk none none "" [] "" "" none none "/health" 5 none [] "")).2.1
      rfl (by decide)⟩

/-- C5: a route spec envelope with Type=Default and an empty provided sequence
synthesizes exactly one Route whose hostname stem is the application's
Metadata.Name and whose Protocol is HTTP (normalizing to port 80); a non-empty
provided sequence is used as given. -/
theorem c5_default_route_synthesis (appName : String) (t : RouteType)
    (ns : List RouteNode) (ht : t = .default) :
    (ns = [] →
      normalizeRouteSpec appName t ns =
          [{ url := appName, protocol := .http, port := none }] ∧
      normalizeRoutes (normalizeRouteSpec appName t ns) =
          .ok [{ url := appName, protocol := .http, port := 80 }]) ∧
    (ns ≠ [] → normalizeRouteSpec appName t ns = ns) := by
  cases ht
  constructor
  · intro h
    cases h
    exact ⟨rfl, rfl⟩
  · intro h
    cases hq : ns with
    | nil => exact absurd hq h
    | cons x xs => simp [normalizeRouteSpec]

/-- Witness for C5: the Default envelope with empty routes for application
`myapp` synthesizes exactly the one HTTP route `myapp`; a non-empty sequence
passes through. -/
theorem c5_witness :
    normalizeRouteSpec "myapp" .default [] =
        [{ url := "myapp", protocol := .http, port := none }] ∧
    normalizeRoutes (normalizeRouteSpec "myapp" .default []) =
        .ok [{ url := "myapp", protocol := .http, port := 80 }] ∧
    normalizeRouteSpec "myapp" .default [RouteNode.mk "x" .http none] =
        [RouteNode.mk "x" .http none] :=
  ⟨((c5_default_route_synthesis "myapp" .default [] rfl).1 rfl).1,
   ((c5_default_route_synthesis "myapp" .default [] rfl).1 rfl).2,
   (c5_default_route_synthesis "myapp" .default [RouteNode.mk "x" .http none] rfl).2
     (by decide)⟩

/-- C6: a route spec envelope with Type=Random yields the provided input
sequence verbatim; in particular an empty input normalizes to an empty output
and no Route is ever synthesized. -/
theorem c6_random_routes_verbatim (appName : String) (ns : List RouteNode) :
    normalizeRouteSpec appName .random ns = ns ∧
    normalizeRouteSpec appName .random [] = ([] : List RouteNode) :=
  ⟨rfl, rfl⟩

/-- C7: a process node without an explicit `type` field normalizes to Type=Web
when it declares at least one Route and to Type=Worker when it declares none. -/
theorem c7_type_inference (p : ProcessNode) (h : p.type = none) :
    (p.routes = [] → (normalizeProcess p).type = .worker) ∧
    (p.routes ≠ [] → (normalizeProcess p).type = .web) := by
  constructor
  · intro hr
    simp [normalizeProcess, inferProcessType, h, hr]
  · intro hr
    cases hq : p.routes with
    | nil => exact absurd hq hr
    | cons x xs => simp [normalizeProcess, inferProcessType, h, hq]

/-- Witness for C7: a typeless process without routes normalizes to Worker and
a typeless process with one route normalizes to Web. -/
theorem c7_witness :
    (ProcessNode.mk none none "" [] "" "" none none "" 0 none [] "").type = none ∧
    (normalizeProcess
        (ProcessNode.mk none none "" [] "" "" none none "" 0 none [] "")).type
      = .worker ∧
    (normalizeProcess
        (ProcessNode.mk none none "" [] "" "" none none "" 0 none
          [RouteNode.mk "a" .http none] "")).type
      = .web :=
  ⟨rfl,
   (c7_type_inference
      (ProcessNode.mk none none "" [] "" "" none none "" 0 none [] "") rfl).1 rfl,
   (c7_type_inference
      (ProcessNode.mk none none "" [] "" "" none none "" 0 none
        [RouteNode.mk "a" .http none] "") rfl).2 (by decide)⟩

/-- C4 counterexample: the canonical Process declaration (part_000 lines
409-428, the model version whose Application carries Routes) has no Routes
field, so a canonical Process record cannot carry a process-scoped subset of
Application.Routes. -/
theorem c4_counterexample :
    canonicalProcessFieldNames.contains "Routes" = false := by decide

/-- C4 amended: in the canonical model version, routes are application-scoped
only: the Application declaration carries a Routes field and a Processes field
while the Process declaration carries no Routes field, so Processes hold no
references into Application.Routes and no cyclic ownership can arise. -/
theorem c4_amended_routes_app_scoped :
    canonicalApplicationFieldNames.contains "Routes" = true ∧
    canonicalApplicationFieldNames.contains "Processes" = true ∧
    canonicalProcessFieldNames.contains "Routes" = false := by decide

/-- C10: in every version of the model the declared RouteProtocol constants are
exactly `http`, `https` and `tcp`; no `http2` constant is declared, every
representable protocol value is one of the three constants, and a protocol that
is neither `http` nor `tcp` can only be `https`. -/
theorem c10_protocol_constants :
    (routeProtocolConstantsV1 = ["http", "https", "tcp"] ∧
     routeProtocolConstantsV2 = ["http", "https", "tcp"] ∧
     routeProtocolConstantsV3 = ["http", "https", "tcp"] ∧
     routeProtocolConstantsV4 = ["http", "https", "tcp"]) ∧
    (routeProtocolConstantsV1.contains "http2" = false ∧
     routeProtocolConstantsV2.contains "http2" = false ∧
     routeProtocolConstantsV3.contains "http2" = false ∧
     routeProtocolConstantsV4.contains "http2" = false) ∧
    (∀ p : RouteProtocol, p.value ∈ routeProtocolConstantsV4) ∧
    (∀ p : RouteProtocol, (p.value == "http2") = false) ∧
    (∀ p : RouteProtocol, p = .http ∨ p = .https ∨ p = .tcp) := by
  refine ⟨by decide, by decide, fun p => ?_, fun p => ?_, fun p => ?_⟩ <;>
    cases p <;> decide

/-- C3: a successful route normalization yields a sequence whose (URL, Port)
pairs are pairwise distinct and which corresponds to the input elementwise in
order; when the elementwise normalization succeeds but two entries share a
(URL, Port) pair, normalization fails with a `duplicateRoute` error naming two
offending entries instead of deduplicating. -/
theorem c3_duplicate_route_detection :
    (∀ (ns : List RouteNode) (cs : List Route), normalizeRoutes ns = .ok cs →
      List.Forall₂ (fun n c => normalizeRoute n = .ok c) ns cs ∧
      cs.Pairwise (fun r s => routeKey r ≠ routeKey s)) ∧
    (∀ (ns : List RouteNode) (cs : List Route),
      List.Forall₂ (fun n c => normalizeRoute n = .ok c) ns cs →
      ¬ cs.Pairwise (fun r s => routeKey r ≠ routeKey s) →
      ∃ r1 r2, normalizeRoutes ns = .error (.duplicateRoute r1 r2) ∧
        routeKey r1 = routeKey r2 ∧ r1 ∈ cs ∧ r2 ∈ cs) := by
  constructor
  · intro ns cs h
    unfold normalizeRoutes at h
    cases hm : mapRoutes ns with
    | error e => rw [hm] at h; exact Except.noConfusion h
    | ok cs' =>
      rw [hm] at h
      dsimp only at h
      cases hd : findDup cs' with
      | some q => obtain ⟨r1, r2⟩ := q; rw [hd] at h; exact Except.noConfusion h
      | none =>
        rw [hd] at h
        have hcs := Except.ok.inj h
        subst hcs
        exact ⟨(mapRoutes_ok_iff ns cs').mp hm, (findDup_eq_none_iff cs').mp hd⟩
  · intro ns cs hf hnp
    have hm := (mapRoutes_ok_iff ns cs).mpr hf
    cases hd : findDup cs with
    | none => exact absurd ((findDup_eq_none_iff cs).mp hd) hnp
    | some q =>
      obtain ⟨r1, r2⟩ := q
      obtain ⟨hk, h1, h2⟩ := findDup_some cs r1 r2 hd
      refine ⟨r1, r2, ?_, hk, h1, h2⟩
      unfold normalizeRoutes
      rw [hm]
      dsimp only
      rw [hd]

/-- Witness for C3: two distinct HTTP routes normalize in order with distinct
(URL, Port) pairs, and two entries that both normalize to `("x", 80)` make
normalization fail with a `duplicateRoute` error naming both. -/
theorem c3_witness :
    (List.Forall₂ (fun n c => normalizeRoute n = .ok c)
        [RouteNode.mk "x" .http none, RouteNode.mk "y" .http none]
        [Route.mk "x" .http 80, Route.mk "y" .http 80] ∧
      List.Pairwise (fun r s => routeKey r ≠ routeKey s)
        [Route.mk "x" .http 80, Route.mk "y" .http 80]) ∧
    (∃ r1 r2,
      normalizeRoutes [RouteNode.mk "x" .http none, RouteNode.mk "x" .http none]
          = .error (.duplicateRoute r1 r2) ∧
      routeKey r1 = routeKey r2 ∧
      r1 ∈ [Route.mk "x" .http 80, Route.mk "x" .http 80] ∧
      r2 ∈ [Route.mk "x" .http 80, Route.mk "x" .http 80]) :=
  ⟨c3_duplicate_route_detection.1
      [RouteNode.mk "x" .http none, RouteNode.mk "y" .http none]
      [Route.mk "x" .http 80, Route.mk "y" .http 80] (by decide),
   c3_duplicate_route_detection.2
      [RouteNode.mk "x" .http none, RouteNode.mk "x" .http none]
      [Route.mk "x" .http 80, Route.mk "x" .http 80]
      (List.Forall₂.cons rfl (List.Forall₂.cons rfl List.Forall₂.nil))
      (by decide)⟩

/-- C8: when the manifest has no explicit StartupTimeout (the unset uint is 0),
the normalized StartupTimeout is 60 exactly when at least one Process or Sidecar
declares a non-sentinel Probe, and is 0 (not defaulted) when no Probe anywhere
is non-sentinel. -/
theorem c8_startup_timeout_default (m : Manifest) (a : Application)
    (hst : m.startupTimeout = 0) (h : normalizeApplication m = .ok a) :
    (a.startupTimeout = 60 ↔ anyNonSentinelProbe m = true) ∧
    (anyNonSentinelProbe m = false → a.startupTimeout = 0) := by
  unfold normalizeApplication at h
  split at h
  · exact Except.noConfusion h
  · cases hr : normalizeRoutes (effectiveRouteNodes m.metadata.name m.routeInput) with
    | error e => rw [hr] at h; exact Except.noConfusion h
    | ok routes =>
      rw [hr] at h
      cases hs : normalizeServices m.services with
      | error e => rw [hs] at h; exact Except.noConfusion h
      | ok services =>
        rw [hs] at h
        have ha := Except.ok.inj h
        subst ha
        cases hp : anyNonSentinelProbe m <;> simp [hst, hp]


/-- Normalizing the already-canonical reading of a canonical Process gives the
same Process back. -/
theorem normalizeProcess_processToNode (p : Process) :
    normalizeProcess (processToNode p) = p := rfl

/-- Probe scan over re-read canonical processes equals the direct scan over the
canonical probes. -/
theorem any_probes_processToNode (l : List Process) :
    (l.map processToNode).any procProbesNonSentinel =
      l.any (fun p => !p.healthCheck.isSentinel || !p.readinessCheck.isSentinel) := by
  induction l with
  | nil => rfl
  | cons x xs ih =>
    simp only [List.map_cons, List.any_cons, ih]
    rfl

/-- Re-read canonical sidecars carry no probes, so their probe scan is false. -/
theorem any_sidecarProbes_false (l : List Sidecar) :
    (l.map sidecarToNode).any sidecarProbesNonSentinel = false := by
  induction l with
  | nil => rfl
  | cons x xs ih =>
    simp only [List.map_cons, List.any_cons, ih]
    rfl

/-- Normalizing the already-canonical reading of a canonical Route gives the
same Route back, provided a TCP URL carries no numeric colon suffix to
re-split. -/
theorem routeToNode_normalizeRoute (r : Route)
    (h : r.protocol = .tcp → (splitHostPort r.url).2 = none) :
    normalizeRoute (routeToNode r) = .ok r := by
  obtain ⟨u, proto, p⟩ := r
  cases proto
  · rfl
  · rfl
  · have h2 := h rfl
    have h1 := splitHostPort_snd_none u h2
    have hsp : splitHostPort u = (u, none) := Prod.ext_iff.mpr ⟨h1, h2⟩
    dsimp only [normalizeRoute, routeToNode]
    rw [hsp]


/-- Elementwise round trip of a canonical route list. -/
theorem mapRoutes_map_routeToNode (rs : List Route)
    (h : ∀ r ∈ rs, r.protocol = .tcp → (splitHostPort r.url).2 = none) :
    mapRoutes (rs.map routeToNode) = .ok rs := by
  induction rs with
  | nil => rfl
  | cons r rest ih =>
    have h1 := routeToNode_normalizeRoute r (h r (List.mem_cons_self r rest))
    have h2 := ih (fun s hs => h s (List.mem_cons_of_mem r hs))
    simp only [List.map_cons]
    unfold mapRoutes
    rw [h1, h2]

/-- Round trip of a canonical service list. -/
theorem map_normalizeService_serviceToNode (l : List Service) :
    (l.map serviceToNode).map normalizeService = l := by
  induction l with
  | nil => rfl
  | cons x xs ih =>
    simp only [List.map_cons, ih]
    rfl

/-- Round trip of a canonical process list. -/
theorem map_normalizeProcess_processToNode (l : List Process) :
    (l.map processToNode).map normalizeProcess = l := by
  induction l with
  | nil => rfl
  | cons x xs ih =>
    simp only [List.map_cons, ih]
    rfl

/-- Round trip of a canonical sidecar list. -/
theorem map_normalizeSidecar_sidecarToNode (l : List Sidecar) :
    (l.map sidecarToNode).map normalizeSidecar = l := by
  induction l with
  | nil => rfl
  | cons x xs ih =>
    simp only [List.map_cons, ih]
    rfl

/-- Re-normalizing the already-canonical reading of an Application that
satisfies the canonical invariants yields the identical Application. -/
theorem normalizeApplication_toManifest (a : Application)
    (hname : ¬ a.metadata.name = "")
    (hdup : findDup a.routes = none)
    (hdups : findDupService a.services = none)
    (hU : ∀ r ∈ a.routes, r.protocol = .tcp → (splitHostPort r.url).2 = none)
    (hst : a.startupTimeout = 0 →
      a.processes.any
        (fun p => !p.healthCheck.isSentinel || !p.readinessCheck.isSentinel) = false) :
    normalizeApplication (toManifest a) = .ok a := by
  have hmr : normalizeRoutes (a.routes.map routeToNode) = .ok a.routes := by
    unfold normalizeRoutes
    rw [mapRoutes_map_routeToNode a.routes hU]
    dsimp only
    rw [hdup]
  have hms : normalizeServices (a.services.map serviceToNode) = .ok a.services := by
    unfold normalizeServices
    rw [map_normalizeService_serviceToNode, hdups]
  have hany : anyNonSentinelProbe (toManifest a) =
      a.processes.any
        (fun p => !p.healthCheck.isSentinel || !p.readinessCheck.isSentinel) := by
    unfold anyNonSentinelProbe toManifest
    dsimp only
    rw [any_probes_processToNode, any_sidecarProbes_false, Bool.or_false]
  unfold normalizeApplication
  have hname' : ¬ (toManifest a).metadata.name = "" := hname
  rw [if_neg hname']
  have hmr' : normalizeRoutes
      (effectiveRouteNodes (toManifest a).metadata.name (toManifest a).routeInput) =
      .ok a.routes := hmr
  rw [hmr']
  dsimp only
  have hms' : normalizeServices (toManifest a).services = .ok a.services := hms
  rw [hms']
  dsimp only
  have hp' : (toManifest a).processes.map normalizeProcess = a.processes :=
    map_normalizeProcess_processToNode a.processes
  have hs' : (toManifest a).sidecars.map normalizeSidecar = a.sidecars :=
    map_normalizeSidecar_sidecarToNode a.sidecars
  have hT : (toManifest a).startupTimeout = a.startupTimeout := rfl
  rw [hp', hs', hT]
  by_cases h0 : a.startupTimeout = 0
  · have hTval : (if a.startupTimeout ≠ 0 then a.startupTimeout
        else if anyNonSentinelProbe (toManifest a) = true then 60 else 0) =
        a.startupTimeout := by
      rw [hany, hst h0, h0]
      rfl
    rw [hTval]
    rfl
  · have hTval : (if a.startupTimeout ≠ 0 then a.startupTimeout
        else if anyNonSentinelProbe (toManifest a) = true then 60 else 0) =
        a.startupTimeout := if_pos h0
    rw [hTval]
    rfl


/-- The canonical probe scan over normalized processes equals the manifest-side
scan over the raw process nodes. -/
theorem any_probes_normalizeProcess (l : List ProcessNode) :
    (l.map normalizeProcess).any
        (fun p => !p.healthCheck.isSentinel || !p.readinessCheck.isSentinel) =
      l.any procProbesNonSentinel := by
  induction l with
  | nil => rfl
  | cons x xs ih =>
    simp only [List.map_cons, List.any_cons, ih]
    rfl

/-- C9 amended: normalization is idempotent on canonical values as long as no
canonical TCP route URL itself ends in a colon followed by digits: for every
Application produced by normalization whose TCP route URLs have no numeric
colon suffix, feeding its serialized representation back through the
normalizers as already-canonical input yields the identical Application. -/
theorem c9_idempotence_amended (m : Manifest) (a : Application)
    (h : normalizeApplication m = .ok a)
    (hU : ∀ r ∈ a.routes, r.protocol = .tcp → (splitHostPort r.url).2 = none) :
    normalizeApplication (toManifest a) = .ok a := by
  unfold normalizeApplication at h
  by_cases hname : m.metadata.name = ""
  · rw [if_pos hname] at h
    exact Except.noConfusion h
  · rw [if_neg hname] at h
    cases hr : normalizeRoutes (effectiveRouteNodes m.metadata.name m.routeInput) with
    | error e => rw [hr] at h; exact Except.noConfusion h
    | ok routes =>
      rw [hr] at h
      dsimp only at h
      cases hs : normalizeServices m.services with
      | error e => rw [hs] at h; exact Except.noConfusion h
      | ok services =>
        rw [hs] at h
        dsimp only at h
        have hdup : findDup routes = none := by
          unfold normalizeRoutes at hr
          cases hm2 : mapRoutes (effectiveRouteNodes m.metadata.name m.routeInput) with
          | error e => rw [hm2] at hr; exact Except.noConfusion hr
          | ok cs =>
            rw [hm2] at hr
            dsimp only at hr
            cases hd : findDup cs with
            | some q =>
              obtain ⟨r1, r2⟩ := q
              rw [hd] at hr
              exact Except.noConfusion hr
            | none =>
              rw [hd] at hr
              rw [← Except.ok.inj hr]
              exact hd
        have hdups : findDupService services = none := by
          unfold normalizeServices at hs
          cases hd : findDupService (m.services.map normalizeService) with
          | some q =>
            obtain ⟨s1, s2⟩ := q
            rw [hd] at hs
            exact Except.noConfusion hs
          | none =>
            rw [hd] at hs
            rw [← Except.ok.inj hs]
            exact hd
        have ha := Except.ok.inj h
        subst ha
        apply normalizeApplication_toManifest
        · exact hname
        · exact hdup
        · exact hdups
        · exact hU
        · intro h0
          dsimp only at h0 ⊢
          rw [any_probes_normalizeProcess]
          by_cases hmst : m.startupTimeout = 0
          · rw [if_neg (not_not_intro hmst)] at h0
            cases hap : anyNonSentinelProbe m with
            | true => rw [hap, if_pos rfl] at h0; exact absurd h0 (by decide)
            | false =>
              unfold anyNonSentinelProbe at hap
              cases hpp : m.processes.any procProbesNonSentinel with
              | false => rfl
              | true => rw [hpp] at hap; exact absurd hap (by simp)
          · rw [if_pos hmst] at h0
            exact absurd h0 hmst


/-- C9 counterexample: the claim as stated fails.  The manifest with the single
TCP route `a:1:2` normalizes to the canonical route URL `a:1` with port 2, but
feeding that canonical Application back through normalization re-splits the
URL `a:1` and yields a different Application, so the round trip is not
byte-identical. -/
theorem c9_counterexample :
    normalizeApplication
        { metadata := { name := "app", space := "" }, env := [],
          routeInput := .plain [{ url := "a:1:2", protocol := .tcp, port := none }],
          services := [], processes := [], sidecars := [], stack := "",
          startupTimeout := 0, replicas := none }
      = .ok { metadata := { name := "app", space := "" }, env := [],
              routes := [{ url := "a:1", protocol := .tcp, port := 2 }],
              services := [], processes := [], sidecars := [], stack := "",
              startupTimeout := 0, replicas := 1 } ∧
    normalizeApplication
        (toManifest
          { metadata := { name := "app", space := "" }, env := [],
            routes := [{ url := "a:1", protocol := .tcp, port := 2 }],
            services := [], processes := [], sidecars := [], stack := "",
            startupTimeout := 0, replicas := 1 })
      ≠ .ok { metadata := { name := "app", space := "" }, env := [],
              routes := [{ url := "a:1", protocol := .tcp, port := 2 }],
              services := [], processes := [], sidecars := [], stack := "",
              startupTimeout := 0, replicas := 1 } := by
  constructor
  · decide
  · decide

/-- Witness for C9 (amended): a canonical Application with the TCP route
`db.internal` port 5432 round-trips to itself. -/
theorem c9_witness :
    normalizeApplication
        { metadata := { name := "app", space := "" }, env := [],
          routeInput := .plain [{ url := "db.internal", protocol := .tcp, port := some 5432 }],
          services := [], processes := [], sidecars := [], stack := "",
          startupTimeout := 0, replicas := none }
      = .ok { metadata := { name := "app", space := "" }, env := [],
              routes := [{ url := "db.internal", protocol := .tcp, port := 5432 }],
              services := [], processes := [], sidecars := [], stack := "",
              startupTimeout := 0, replicas := 1 } ∧
    normalizeApplication
        (toManifest
          { metadata := { name := "app", space := "" }, env := [],
            routes := [{ url := "db.internal", protocol := .tcp, port := 5432 }],
            services := [], processes := [], sidecars := [], stack := "",
            startupTimeout := 0, replicas := 1 })
      = .ok { metadata := { name := "app", space := "" }, env := [],
              routes := [{ url := "db.internal", protocol := .tcp, port := 5432 }],
              services := [], processes := [], sidecars := [], stack := "",
              startupTimeout := 0, replicas := 1 } :=
  ⟨by decide,
   c9_idempotence_amended
     { metadata := { name := "app", space := "" }, env := [],
       routeInput := .plain [{ url := "db.internal", protocol := .tcp, port := some 5432 }],
       services := [], processes := [], sidecars := [], stack := "",
       startupTimeout := 0, replicas := none }
     { metadata := { name := "app", space := "" }, env := [],
       routes := [{ url := "db.internal", protocol := .tcp, port := 5432 }],
       services := [], processes := [], sidecars := [], stack := "",
       startupTimeout := 0, replicas := 1 }
     (by decide) (by decide)⟩


/-- Witness for C8: a manifest with no explicit StartupTimeout and one process
with a flat legacy probe normalizes StartupTimeout to 60, matching the
non-sentinel probe scan. -/
theorem c8_witness :
    (Manifest.mk { name := "app", space := "" } [] (.plain []) []
        [ProcessNode.mk none none "img" [] "" "" none none "/health" 5 none [] ""]
        [] "" 0 none).startupTimeout = 0 ∧
    normalizeApplication
        (Manifest.mk { name := "app", space := "" } [] (.plain []) []
          [ProcessNode.mk none none "img" [] "" "" none none "/health" 5 none [] ""]
          [] "" 0 none)
      = .ok (Application.mk { name := "app", space := "" } [] [] []
          [Process.mk .worker "worker" "img" [] "" ""
            { endpoint := "/health", timeout := 5, interval := 5 }
            { endpoint := "", timeout := 0, interval := 0 } 1 ""]
          [] "" 60 1) ∧
    ((Application.mk { name := "app", space := "" } [] [] []
          [Process.mk .worker "worker" "img" [] "" ""
            { endpoint := "/health", timeout := 5, interval := 5 }
            { endpoint := "", timeout := 0, interval := 0 } 1 ""]
          [] "" 60 1).startupTimeout = 60 ↔
      anyNonSentinelProbe
        (Manifest.mk { name := "app", space := "" } [] (.plain []) []
          [ProcessNode.mk none none "img" [] "" "" none none "/health" 5 none [] ""]
          [] "" 0 none) = true) :=
  ⟨rfl, by decide,
   (c8_startup_timeout_default
      (Manifest.mk { name := "app", space := "" } [] (.plain []) []
        [ProcessNode.mk none none "img" [] "" "" none none "/health" 5 none [] ""]
        [] "" 0 none)
      (Application.mk { name := "app", space := "" } [] [] []
        [Process.mk .worker "worker" "img" [] "" ""
          { endpoint := "/health", timeout := 5, interval := 5 }
          { endpoint := "", timeout := 0, interval := 0 } 1 ""]
        [] "" 60 1)
      rfl (by decide)).1⟩

end CF
